import Mathlib

/-!
# Verification of the sbt_lockamp signal-streaming subsystem

Shallow embedding of the lock-in amplifier streaming pipeline from
`drivers/char/sbt_lockamp` (`fops.c`, `hw.c`, `hw.h`, `lockin_amplifier.h`):
the circular sample buffer, the producer drain (`lockamp_fifo_move_to_sbuf`),
the chunked reader protocol (`device_read` and its helpers), the desync
detector (`reader_get_sbuf_snapshot` / `synchronize`), the decimation
configuration (`lockamp_set_decimation`) and the adaptive-sleep computation
(`sleep_until_fifo_half_full`).

Machine integers are modelled as `Nat`/`Int`.  The kernel's `CIRC_*` macros
mask with `& (size - 1)` on two's-complement `ptrdiff_t`; for a power-of-two
`size` this equals the mathematically non-negative remainder, so the mask is
embedded as `Int.emod` (`maskMod`).  The `u64` timestamp arithmetic reduces
modulo `2 ^ 64` where the source stores into a `u64` field.
-/

set_option autoImplicit false

namespace SbtLockamp

/-! ## Constants (lockin_amplifier.h, hw.h, fops.c) -/

/-- `sizeof(struct sample)`: 2 sites x 4 x s32, packed (lockin_amplifier.h). -/
def sampleSize : Nat := 32

/-- `sizeof(struct chunk_header)`: two packed u64 fields (fops.c). -/
def chunkHeaderSize : Nat := 16

/-- `LOCKAMP_BASE_TIME_STEP` (hw.h): exact integral time step at decimation 1. -/
def LOCKAMP_BASE_TIME_STEP : Nat := 2728

/-- `LOCKAMP_FIFO_CAPACITY` (hw.c / lockin_amplifier.h): bytes. -/
def LOCKAMP_FIFO_CAPACITY : Nat := 131072

/-- `lockamp_fifo_capacity_n` (hw.c): hardware-FIFO capacity in samples. -/
def lockamp_fifo_capacity_n : Nat := LOCKAMP_FIFO_CAPACITY / sampleSize

/-- `LOCKAMP_SIGNAL_BUF_CAPACITY` (lockin_amplifier.h): 4 MiB. -/
def LOCKAMP_SIGNAL_BUF_CAPACITY : Nat := 4194304

/-- Signal-buffer capacity in samples, as set in `lockamp_probe`
    (lockin_amplifier.c line 186). -/
def signalBufCapacityN : Nat := LOCKAMP_SIGNAL_BUF_CAPACITY / sampleSize

/-- Linux `EINVAL` errno; failures return `-EINVAL`. -/
def EINVAL : Int := 22

/-- `2 ^ 64`, the modulus of `u64` arithmetic. -/
def U64_MOD : Nat := 2 ^ 64

/-! ## The `CIRC_*` macros (include/linux/circ_buf.h)

The macros compute on `ptrdiff_t` and mask with `& (size - 1)`.  On the
two's-complement target, for power-of-two `size`, `x & (size - 1)` is the
non-negative remainder of `x` modulo `size`, i.e. `Int.emod`. -/

/-- `x & (size - 1)` for a power-of-two `size`, as a value in `[0, size)`. -/
def maskMod (x : Int) (size : Nat) : Nat := (x % (size : Int)).toNat

/-- `CIRC_CNT(head, tail, size)`: `((head) - (tail)) & ((size)-1)`. -/
def circCnt (head tail size : Nat) : Nat := maskMod ((head : Int) - tail) size

/-- `CIRC_SPACE(head, tail, size)`: `CIRC_CNT((tail), ((head)+1), (size))`. -/
def circSpace (head tail size : Nat) : Nat := circCnt tail (head + 1) size

/-- `CIRC_CNT_TO_END(head, tail, size)`:
    `end = size - tail; n = (head + end) & (size-1); n < end ? n : end`. -/
def circCntToEnd (head tail size : Nat) : Nat :=
  let e := size - tail
  let n := maskMod ((head : Int) + e) size
  if n < e then n else e

/-! ## Device state

The fields of `struct lockamp` / `struct circ_sample_buf` that the streaming
logic reads or writes, plus the two hardware registers behind the decimation
interface (`control2 + 4`, i.e. the half-band filter count, and the FIR-cycle
register). -/

structure Lockamp where
  /-- `signal_buf.capacity_n` -/
  capacity_n : Nat
  /-- `signal_buf.head` (written only by the acquisition thread) -/
  head : Nat
  /-- `signal_buf.tail` (written only by readers) -/
  tail : Nat
  /-- `atomic_t desyncs` -/
  desyncs : Nat
  /-- `last_desyncs` (the reader's last observed copy) -/
  last_desyncs : Nat
  /-- `u64 last_start_time_ns` -/
  last_start_time_ns : Nat
  /-- half-band filter register (`control2 + 4`); decimation is `1 << hb_filters` -/
  hb_filters : Nat
  /-- `LOCKAMP_REG_FIR_CYCLES` register -/
  fir_cycles : Nat
  deriving DecidableEq, Repr

/-- Well-formedness: the probe code allocates a positive power-of-two
    capacity and both indices always stay below it. -/
def Lockamp.WF (la : Lockamp) : Prop :=
  0 < la.capacity_n ∧ la.head < la.capacity_n ∧ la.tail < la.capacity_n

instance (la : Lockamp) : Decidable la.WF := by
  unfold Lockamp.WF; infer_instance

/-- `occupied_count`: `CIRC_CNT` of the live indices. -/
def occupiedCount (la : Lockamp) : Nat := circCnt la.head la.tail la.capacity_n

/-- `available_space`: `CIRC_SPACE` of the live indices. -/
def availSpace (la : Lockamp) : Nat := circSpace la.head la.tail la.capacity_n

/-! ## Decimation configuration (hw.c / hw.h) -/

/-- `lockamp_get_decimation` (hw.c): `1 << hb_filters`. -/
def lockamp_get_decimation (la : Lockamp) : Nat := 2 ^ la.hb_filters

/-- `lockamp_set_decimation` (hw.c): accepts only 1, 2, 4, 8, 16; stores
    `ilog2(value)` in the half-band register and derives the FIR cycles. -/
def lockamp_set_decimation (la : Lockamp) (value : Nat) : Except Int Lockamp :=
  if value = 1 ∨ value = 2 ∨ value = 4 ∨ value = 8 ∨ value = 16 then
    let hb_filters := Nat.log2 value
    let fir_cycles := min 511 (341 * 2 ^ hb_filters / 8 - 6)
    .ok { la with hb_filters := hb_filters, fir_cycles := fir_cycles }
  else
    .error (-EINVAL)

/-- `lockamp_get_time_step_ns` (hw.h line 212):
    `lockamp_get_decimation(lockamp) * LOCKAMP_BASE_TIME_STEP`. -/
def lockamp_get_time_step_ns (la : Lockamp) : Nat :=
  lockamp_get_decimation la * LOCKAMP_BASE_TIME_STEP

/-- `2 ^ 32`: the modulus of the driver's 32-bit integer arithmetic.  The
    source documents its target as GCC 7.2 arm-linux-gnueabihf (hw.h's
    comment in `lockamp_fifo_pop_dbg`), an ILP32 ABI where `unsigned int`
    and `size_t` are both 32 bits wide. -/
def U32_MOD : Nat := 2 ^ 32

/-- `lockamp_get_duration_ns` (hw.h line 217): `time_step * size_n`.  The
    product is `unsigned int * size_t`, computed in 32-bit arithmetic on the
    driver's ILP32 target, so it wraps modulo `2 ^ 32` before being widened
    to the `u64` return value. -/
def lockamp_get_duration_ns (la : Lockamp) (size_n : Nat) : Nat :=
  (lockamp_get_time_step_ns la * size_n) % U32_MOD

/-- `lockamp_get_read_delay_ns` (hw.h line 222): time to fill half of the
    hardware FIFO, `LOCKAMP_FIFO_CAPACITY_N / 2 * time_step`. -/
def lockamp_get_read_delay_ns (la : Lockamp) : Nat :=
  lockamp_fifo_capacity_n / 2 * lockamp_get_time_step_ns la

/-! ## Producer drain (hw.c, `lockamp_fifo_move_to_sbuf`) -/

/-- One step of the drain loop's head advance: `head = (head + 1) & (cap - 1)`. -/
def advanceHead (cap head : Nat) : Nat := maskMod ((head : Int) + 1) cap

/-- `lockamp_fifo_move_to_sbuf` (hw.c lines 117-149): reads `head` and `tail`,
    computes `CIRC_SPACE`; if the space is zero it increments `desyncs` (data
    loss) with a rate-limited warning; then moves
    `min(space, fifo_size_n)` samples one at a time, advancing `head` with the
    capacity mask, and publishes the new head.  Returns the moved count and the
    new state.  (The over-3/4-full FIFO warning is log-only and the popped
    sample payloads are not tracked; neither affects the state fields here.) -/
def lockamp_fifo_move_to_sbuf (la : Lockamp) (fifo_size_n : Nat) :
    Nat × Lockamp :=
  let head := la.head
  let tail := la.tail
  let signal_buf_space_n := circSpace head tail la.capacity_n
  let desyncs' := if signal_buf_space_n = 0 then la.desyncs + 1 else la.desyncs
  let bounded_size_n := min signal_buf_space_n fifo_size_n
  let head' := (advanceHead la.capacity_n)^[bounded_size_n] head
  (bounded_size_n, { la with head := head', desyncs := desyncs' })

/-! ## Chunked reader protocol (fops.c) -/

/-- `struct csbuf_snapshot` (lockin_amplifier.h). -/
structure CsbufSnapshot where
  size_n : Nat
  head : Nat
  tail : Nat
  deriving DecidableEq, Repr

/-- `struct chunk_header` (fops.c): two packed u64 fields. -/
structure ChunkHeader where
  last_start_time_ns : Nat
  time_step_ns : Nat
  deriving DecidableEq, Repr

/-- `struct chunk_info` (fops.c). -/
structure ChunkInfo where
  header : ChunkHeader
  data_size_n : Nat
  deriving DecidableEq, Repr

/-- `reader_get_sbuf_snapshot` (fops.c lines 306-316): acquire-load the head,
    read the reader-owned tail, compute `CIRC_CNT`; if the occupancy equals
    `capacity_n - 1` the buffer saturated, so increment `desyncs` and warn. -/
def reader_get_sbuf_snapshot (la : Lockamp) : CsbufSnapshot × Lockamp :=
  let head := la.head
  let tail := la.tail
  let size_n := circCnt head tail la.capacity_n
  let desyncs' := if la.capacity_n - 1 = size_n then la.desyncs + 1 else la.desyncs
  (⟨size_n, head, tail⟩, { la with desyncs := desyncs' })

/-- `reset_start_time` (fops.c line 135): `last_start_time_ns = ktime_get_ns()`.
    The current time is passed in as `now_ns` (a u64 value). -/
def reset_start_time (la : Lockamp) (now_ns : Nat) : Lockamp :=
  { la with last_start_time_ns := now_ns % U64_MOD }

/-- `synchronize` (fops.c lines 320-327): if the live `desyncs` differs from
    `last_desyncs`, warn and reset the start time to now; in either case set
    `last_desyncs` to the current `desyncs`.  The returned flag records
    whether the desync warning/reset branch was taken. -/
def synchronize (la : Lockamp) (now_ns : Nat) : Lockamp × Bool :=
  if la.desyncs ≠ la.last_desyncs then
    ({ (reset_start_time la now_ns) with last_desyncs := la.desyncs }, true)
  else
    ({ la with last_desyncs := la.desyncs }, false)

/-- `chunk_get_info` (fops.c lines 261-282): reject a user buffer smaller than
    the chunk header with `-EINVAL`; otherwise size the data to
    `min((length - header_size) / sample_size, snapshot occupancy)` and build
    the header from the current timeline state and nominal time step. -/
def chunk_get_info (la : Lockamp) (usr_buf_length : Nat)
    (sbuf_snap : CsbufSnapshot) : Except Int ChunkInfo :=
  if chunkHeaderSize > usr_buf_length then
    .error (-EINVAL)
  else
    let time_step_ns := lockamp_get_time_step_ns la
    let data_size_n :=
      min ((usr_buf_length - chunkHeaderSize) / sampleSize) sbuf_snap.size_n
    .ok { header := { last_start_time_ns := la.last_start_time_ns,
                      time_step_ns := time_step_ns },
          data_size_n := data_size_n }

/-- `chunk_commit_info` (fops.c lines 284-293):
    `last_start_time_ns += lockamp_get_duration_ns(lockamp, data_size_n)`,
    a u64 accumulation. -/
def chunk_commit_info (la : Lockamp) (info : ChunkInfo) : Lockamp :=
  let duration_ns := lockamp_get_duration_ns la info.data_size_n
  { la with
    last_start_time_ns := (la.last_start_time_ns + duration_ns) % U64_MOD }

/-- `pop_chunk_to_user` (fops.c lines 219-236): copy the contiguous run from
    the snapshot tail towards the head or the physical end of the array,
    bounded by `length` bytes; advance the published and snapshot tails by the
    whole samples copied.  Returns the copied byte count and the new tail.
    (The `copy_to_user` fault path concerns user memory, not this state
    machine, and is modelled as always succeeding.) -/
def pop_chunk_to_user (cap : Nat) (snapHead snapTail : Nat) (length : Nat) :
    Nat × Nat :=
  let cbuf_size_to_end_n := circCntToEnd snapHead snapTail cap
  let chunk_size := cbuf_size_to_end_n * sampleSize
  let copy_length := min chunk_size length
  let copy_length_n := copy_length / sampleSize
  let new_tail := maskMod ((snapTail : Int) + copy_length_n) cap
  (copy_length, new_tail)

/-- `pop_to_user` (fops.c lines 238-259): two contiguous pops to handle
    wrap-around; returns total bytes copied and the final tail. -/
def pop_to_user (cap : Nat) (snapHead snapTail : Nat) (length : Nat) :
    Nat × Nat :=
  let first := pop_chunk_to_user cap snapHead snapTail length
  let second := pop_chunk_to_user cap snapHead first.2 (length - first.1)
  (first.1 + second.1, second.2)

/-- Successful outcome of `device_read`: bytes written and the header that was
    copied to the user buffer. -/
structure ReadOk where
  bytes : Nat
  header : ChunkHeader
  deriving DecidableEq, Repr

/-- `device_read` (fops.c lines 329-368, `CONFIG_SBT_LOCKAMP_USE_SBUF` path):
    snapshot, synchronize, size the chunk (may fail with `-EINVAL`), write the
    header, pop up to two contiguous runs of `data_size_n * sample_size`
    bytes, commit the timeline, and return `header + data` bytes.  The state
    is returned alongside the result since the C code mutates it in place
    (on the `-EINVAL` path the snapshot/synchronize mutations have already
    happened). -/
def device_read (la : Lockamp) (now_ns : Nat) (length : Nat) :
    Except Int ReadOk × Lockamp :=
  let snapPair := reader_get_sbuf_snapshot la
  let sbuf_snap := snapPair.1
  let la1 := (synchronize snapPair.2 now_ns).1
  match chunk_get_info la1 length sbuf_snap with
  | .error e => (.error e, la1)
  | .ok info =>
    let dataLength := info.data_size_n * sampleSize
    let popped := pop_to_user la1.capacity_n sbuf_snap.head sbuf_snap.tail dataLength
    let la2 := { la1 with tail := popped.2 }
    let la3 := chunk_commit_info la2 info
    (.ok { bytes := chunkHeaderSize + popped.1, header := info.header }, la3)

/-- `device_write` (fops.c lines 419-423): always `-EPERM`. -/
def device_write : Int := -1

/-! ## Acquisition-thread sleep computation (fops.c lines 76-131)

`sleep_until_fifo_half_full` computes, in C `long` arithmetic,
`sleep_upper_us = max((target_sleep_ns - fifo_read_duration) / 1000, 3000)`
(with C division truncating toward zero) and
`sleep_lower_us = max(sleep_upper_us - 10000, 2000)`.  The subtraction
operands are modelled as arbitrary `Int` values, which covers every value the
C casts can produce. -/

def sleep_upper_us (target_sleep_ns fifo_read_duration : Int) : Int :=
  max ((target_sleep_ns - fifo_read_duration).tdiv 1000) 3000

def sleep_lower_us (target_sleep_ns fifo_read_duration : Int) : Int :=
  max (sleep_upper_us target_sleep_ns fifo_read_duration - 10000) 2000

/-- The sleep range actually used for `usleep_range`, as a function of the
    device state (which determines the read-delay target) and the measured
    duration of the last drain. -/
def sleep_range_us (la : Lockamp) (fifo_read_duration : Int) : Int × Int :=
  let target : Int := lockamp_get_read_delay_ns la
  (sleep_lower_us target fifo_read_duration,
   sleep_upper_us target fifo_read_duration)

/-- Conversion of a C `int`/`long` value stored into a `u64` variable:
    two's-complement reinterpretation, i.e. the remainder modulo `2 ^ 64`. -/
def u64OfInt (x : Int) : Nat := (x % (U64_MOD : Int)).toNat

/-- The guard `if (lockamp_fifo_read_delay < 0)` in `fifo_to_sbuf`
    (fops.c line 125): `lockamp_fifo_read_delay` is declared `u64`
    (fops.c line 36), so the comparison is an unsigned 64-bit comparison of
    the stored value against zero. -/
def fifo_read_delay_is_negative (lockamp_fifo_read_delay : Nat) : Bool :=
  decide ((lockamp_fifo_read_delay % U64_MOD) < 0)

/-- One iteration of the `fifo_to_sbuf` acquisition loop (fops.c lines
    109-129) at the level of the signal-buffer state: drain the FIFO, then
    decide from the u64 `lockamp_fifo_read_delay` whether to take the
    250 ms fallback sleep (`msleep(250)` with a warning).  `read_delay_ret`
    is the value stored into `lockamp_fifo_read_delay`, which on the error
    path of `sleep_until_fifo_half_full` is the u64 reinterpretation of the
    negative errno returned by the read-delay computation.  The returned flag
    records whether the fallback branch executed. -/
def fifo_to_sbuf_iteration (la : Lockamp) (fifo_size_n : Nat)
    (read_delay_ret : Int) : Lockamp × Bool :=
  let drained := lockamp_fifo_move_to_sbuf la fifo_size_n
  (drained.2, fifo_read_delay_is_negative (u64OfInt read_delay_ret))

/-! ## Arithmetic facts about the `CIRC_*` macros -/

theorem maskMod_lt (x : Int) {size : Nat} (h : 0 < size) : maskMod x size < size := by
  have hz : (size : Int) ≠ 0 := by exact_mod_cast h.ne'
  have h1 : x % (size : Int) < (size : Int) :=
    Int.emod_lt_of_pos x (by exact_mod_cast h)
  have h0 : 0 ≤ x % (size : Int) := Int.emod_nonneg x hz
  unfold maskMod
  omega

theorem maskMod_natCast (n size : Nat) : maskMod (n : Int) size = n % size := by
  unfold maskMod
  norm_cast

theorem circCnt_eq {head tail size : Nat} (ht : tail ≤ size) :
    circCnt head tail size = (head + size - tail) % size := by
  unfold circCnt
  rw [show (head : Int) - tail
        = ((head + size - tail : Nat) : Int) + (size : Int) * (-1) by omega,
      show maskMod (((head + size - tail : Nat) : Int) + (size : Int) * (-1)) size
        = (((((head + size - tail : Nat) : Int) + (size : Int) * (-1)) % (size : Int))).toNat
        from rfl,
      Int.add_mul_emod_self_left]
  have := maskMod_natCast (head + size - tail) size
  unfold maskMod at this
  omega

theorem circCnt_closed {head tail size : Nat} (hh : head < size) (htl : tail < size) :
    circCnt head tail size
      = if tail ≤ head then head - tail else head + size - tail := by
  rw [circCnt_eq htl.le]
  by_cases h : tail ≤ head
  · rw [if_pos h, show head + size - tail = size + (head - tail) by omega,
        Nat.add_mod_left]
    exact Nat.mod_eq_of_lt (by omega)
  · rw [if_neg h]
    exact Nat.mod_eq_of_lt (by omega)

theorem circCnt_lt {head tail size : Nat} (h : 0 < size) :
    circCnt head tail size < size := maskMod_lt _ h

theorem circSpace_closed {head tail size : Nat} (hh : head < size) (htl : tail < size) :
    circSpace head tail size
      = if tail ≤ head then size - 1 - (head - tail) else tail - head - 1 := by
  unfold circSpace
  rw [circCnt_eq (by omega : head + 1 ≤ size)]
  by_cases h : tail ≤ head
  · rw [if_pos h, show tail + size - (head + 1) = size - 1 - (head - tail) by omega]
    exact Nat.mod_eq_of_lt (by omega)
  · rw [if_neg h, show tail + size - (head + 1) = size + (tail - head - 1) by omega,
        Nat.add_mod_left]
    exact Nat.mod_eq_of_lt (by omega)

/-- One slot always stays empty: free space is `capacity - 1 - occupancy`. -/
theorem circSpace_eq_sub {head tail size : Nat} (hh : head < size) (htl : tail < size) :
    circSpace head tail size = size - 1 - circCnt head tail size := by
  rw [circSpace_closed hh htl, circCnt_closed hh htl]
  by_cases h : tail ≤ head
  · simp only [h, if_true]
  · simp only [h, if_false]; omega

theorem advanceHead_eq {cap : Nat} (head : Nat) :
    advanceHead cap head = (head + 1) % cap := by
  unfold advanceHead
  rw [show ((head : Int) + 1) = ((head + 1 : Nat) : Int) by omega]
  exact maskMod_natCast _ _

theorem advanceHead_iterate {cap : Nat} (hc : 0 < cap) (b : Nat) :
    ∀ head, head < cap → (advanceHead cap)^[b] head = (head + b) % cap := by
  induction b with
  | zero => intro head hh; simpa using (Nat.mod_eq_of_lt hh).symm
  | succ b ih =>
    intro head hh
    rw [Function.iterate_succ_apply, advanceHead_eq, ih _ (Nat.mod_lt _ hc),
        Nat.mod_add_mod]
    congr 1
    omega

/-- Advancing the head by at most the free space adds exactly that many
    occupied slots (no overwrite of unread data). -/
theorem circCnt_add {head tail size b : Nat} (hh : head < size) (htl : tail < size)
    (hb : b ≤ circSpace head tail size) :
    circCnt ((head + b) % size) tail size = circCnt head tail size + b := by
  have hc : 0 < size := Nat.pos_of_ne_zero (by omega)
  rw [circCnt_eq htl.le,
      show (head + b) % size + size - tail = (head + b) % size + (size - tail) by omega,
      Nat.mod_add_mod, circCnt_closed hh htl]
  rw [circSpace_closed hh htl] at hb
  by_cases hcase : tail ≤ head
  · rw [if_pos hcase] at hb ⊢
    rw [show head + b + (size - tail) = size + (head - tail + b) by omega,
        Nat.add_mod_left]
    rw [Nat.mod_eq_of_lt (by omega)]
  · rw [if_neg hcase] at hb ⊢
    rw [Nat.mod_eq_of_lt (by omega)]
    omega

/-- `CIRC_CNT_TO_END` is the occupancy truncated at the physical array end. -/
theorem circCntToEnd_eq {head tail size : Nat} (htl : tail < size) :
    circCntToEnd head tail size = min (circCnt head tail size) (size - tail) := by
  unfold circCntToEnd
  have h1 : maskMod ((head : Int) + ((size - tail : Nat) : Int)) size
      = (head + size - tail) % size := by
    rw [show ((head : Int) + ((size - tail : Nat) : Int))
          = ((head + size - tail : Nat) : Int) by omega]
    exact maskMod_natCast _ _
  simp only [h1, ← circCnt_eq htl.le]
  split <;> omega

/-! ## Closed forms of the operations -/

/-- `lockamp_fifo_move_to_sbuf` moves exactly `min(space, fifo_size_n)`
    samples and advances the head by that amount. -/
theorem move_to_sbuf_eq (la : Lockamp) (hwf : la.WF) (n : Nat) :
    lockamp_fifo_move_to_sbuf la n =
      (min (availSpace la) n,
       { la with
         head := (la.head + min (availSpace la) n) % la.capacity_n,
         desyncs := if availSpace la = 0 then la.desyncs + 1 else la.desyncs }) := by
  obtain ⟨hc, hh, _⟩ := hwf
  simp only [lockamp_fifo_move_to_sbuf, availSpace]
  rw [advanceHead_iterate hc _ _ hh]

theorem pop_chunk_eq {cap head tail : Nat} (l : Nat) (htl : tail < cap) :
    pop_chunk_to_user cap head tail (l * sampleSize) =
      (min (min (circCnt head tail cap) (cap - tail)) l * sampleSize,
       (tail + min (min (circCnt head tail cap) (cap - tail)) l) % cap) := by
  simp only [pop_chunk_to_user, circCntToEnd_eq htl]
  have hmin : min (min (circCnt head tail cap) (cap - tail) * sampleSize)
      (l * sampleSize) = min (min (circCnt head tail cap) (cap - tail)) l
        * sampleSize := by
    rcases le_total (min (circCnt head tail cap) (cap - tail)) l with h | h
    · rw [min_eq_left (Nat.mul_le_mul_right _ h), min_eq_left h]
    · rw [min_eq_right (Nat.mul_le_mul_right _ h), min_eq_right h]
  rw [hmin, Nat.mul_div_cancel _ (by decide : 0 < sampleSize)]
  rw [show ((tail : Int) + (min (min (circCnt head tail cap) (cap - tail)) l : Nat))
        = ((tail + min (min (circCnt head tail cap) (cap - tail)) l : Nat) : Int)
      by omega]
  rw [maskMod_natCast]

theorem pop_chunk_zero {cap head tail : Nat} (htl : tail < cap) :
    pop_chunk_to_user cap head tail 0 = (0, tail) := by
  simp only [pop_chunk_to_user, Nat.min_zero, Nat.zero_div, Nat.cast_zero,
    add_zero, maskMod_natCast]
  rw [Nat.mod_eq_of_lt htl]

/-- `pop_to_user` for a whole number of samples within the snapshot occupancy
    copies exactly the requested bytes across the at-most-two contiguous runs
    and leaves the tail advanced by the popped sample count. -/
theorem pop_to_user_spec {cap head tail d : Nat} (hh : head < cap)
    (htl : tail < cap) (hd : d ≤ circCnt head tail cap) :
    pop_to_user cap head tail (d * sampleSize)
      = (d * sampleSize, (tail + d) % cap) := by
  have hc : 0 < cap := by omega
  by_cases hA : d ≤ min (circCnt head tail cap) (cap - tail)
  · simp only [pop_to_user, pop_chunk_eq d htl, min_eq_right hA, Nat.sub_self,
      pop_chunk_zero (Nat.mod_lt _ hc)]
    simp
  · have hcc := circCnt_closed hh htl
    by_cases htle : tail ≤ head
    · rw [if_pos htle] at hcc
      omega
    · rw [if_neg htle] at hcc
      have hmin : min (circCnt head tail cap) (cap - tail) = cap - tail := by omega
      have hc0 := circCnt_closed hh hc
      rw [if_pos (Nat.zero_le head)] at hc0
      simp only [pop_to_user, pop_chunk_eq d htl, hmin]
      rw [min_eq_left (by omega), show tail + (cap - tail) = cap by omega,
          Nat.mod_self, ← Nat.sub_mul, pop_chunk_eq (d - (cap - tail)) hc, hc0]
      rw [hcc] at hd
      have hmin2 : (head - 0) ⊓ (cap - 0) ⊓ (d - (cap - tail)) = d - (cap - tail) := by
        omega
      rw [hmin2]
      dsimp only
      rw [Nat.zero_add, Nat.mod_eq_of_lt (by omega), ← Nat.add_mul,
          show cap - tail + (d - (cap - tail)) = d by omega,
          show tail + d = cap + (d - (cap - tail)) by omega, Nat.add_mod_left,
          Nat.mod_eq_of_lt (by omega)]

/-- `chunk_get_info` on a buffer at least as large as the header. -/
theorem chunk_get_info_ok (la : Lockamp) (len : Nat) (snap : CsbufSnapshot)
    (h16 : chunkHeaderSize ≤ len) :
    chunk_get_info la len snap = .ok
      { header := { last_start_time_ns := la.last_start_time_ns,
                    time_step_ns := lockamp_get_time_step_ns la },
        data_size_n := min ((len - chunkHeaderSize) / sampleSize) snap.size_n } := by
  unfold chunk_get_info
  rw [if_neg (by omega)]

/-- The state after the snapshot and synchronize steps of `device_read`. -/
def syncState (la : Lockamp) (now_ns : Nat) : Lockamp :=
  (synchronize (reader_get_sbuf_snapshot la).2 now_ns).1

/-- The number of samples a read with user-buffer length `length` returns:
    the caller's data capacity clamped to the snapshot occupancy.  (For
    `length < chunkHeaderSize` the truncated subtraction makes this zero,
    matching the `-EINVAL` path, which commits nothing.) -/
def readSamples (la : Lockamp) (length : Nat) : Nat :=
  min ((length - chunkHeaderSize) / sampleSize) (occupiedCount la)

theorem snapshot_fst (la : Lockamp) :
    (reader_get_sbuf_snapshot la).1 = ⟨occupiedCount la, la.head, la.tail⟩ := rfl

theorem snapshot_snd_desyncs (la : Lockamp) :
    (reader_get_sbuf_snapshot la).2.desyncs =
      if la.capacity_n - 1 = occupiedCount la then la.desyncs + 1
      else la.desyncs := rfl

theorem syncState_capacity (la : Lockamp) (now : Nat) :
    (syncState la now).capacity_n = la.capacity_n := by
  unfold syncState synchronize reset_start_time
  split <;> rfl

theorem syncState_head (la : Lockamp) (now : Nat) :
    (syncState la now).head = la.head := by
  unfold syncState synchronize reset_start_time
  split <;> rfl

theorem syncState_tail (la : Lockamp) (now : Nat) :
    (syncState la now).tail = la.tail := by
  unfold syncState synchronize reset_start_time
  split <;> rfl

theorem syncState_hb (la : Lockamp) (now : Nat) :
    (syncState la now).hb_filters = la.hb_filters := by
  unfold syncState synchronize reset_start_time
  split <;> rfl

theorem syncState_desyncs (la : Lockamp) (now : Nat) :
    (syncState la now).desyncs = (reader_get_sbuf_snapshot la).2.desyncs := by
  unfold syncState synchronize reset_start_time
  split <;> rfl

theorem syncState_last_desyncs (la : Lockamp) (now : Nat) :
    (syncState la now).last_desyncs = (reader_get_sbuf_snapshot la).2.desyncs := by
  unfold syncState synchronize reset_start_time
  split <;> rfl

theorem syncState_last_start (la : Lockamp) (now : Nat) :
    (syncState la now).last_start_time_ns =
      if (reader_get_sbuf_snapshot la).2.desyncs ≠ la.last_desyncs
      then now % U64_MOD else la.last_start_time_ns := by
  unfold syncState synchronize reset_start_time
  split
  · rw [if_pos (by assumption)]
  · rw [if_neg (by assumption)]
    rfl

/-- Master closed form of `device_read` when the user buffer can hold the
    header: the call succeeds, returns the header built from the
    post-synchronize timeline plus `readSamples` samples (`min` of the
    caller's data capacity and the snapshot occupancy), advances the tail by
    exactly that count, and commits `time_step * readSamples` to the
    timeline. -/
theorem device_read_eq (la : Lockamp) (hwf : la.WF) (now len : Nat)
    (h16 : chunkHeaderSize ≤ len) :
    device_read la now len =
      (.ok { bytes := chunkHeaderSize + readSamples la len * sampleSize,
             header := { last_start_time_ns := (syncState la now).last_start_time_ns,
                         time_step_ns := lockamp_get_time_step_ns la } },
       { syncState la now with
         tail := (la.tail + readSamples la len) % la.capacity_n,
         last_start_time_ns :=
           ((syncState la now).last_start_time_ns
             + lockamp_get_duration_ns la (readSamples la len)) % U64_MOD }) := by
  obtain ⟨hc, hh, ht⟩ := hwf
  simp only [device_read]
  rw [chunk_get_info_ok _ _ _ h16]
  dsimp only
  rw [snapshot_fst la]
  dsimp only
  have hcap : (synchronize (reader_get_sbuf_snapshot la).2 now).1.capacity_n
      = la.capacity_n := syncState_capacity la now
  rw [hcap]
  have hpop : pop_to_user la.capacity_n la.head la.tail
      (readSamples la len * sampleSize)
      = (readSamples la len * sampleSize,
         (la.tail + readSamples la len) % la.capacity_n) :=
    pop_to_user_spec hh ht (min_le_right _ _)
  rw [show min ((len - chunkHeaderSize) / sampleSize) (occupiedCount la)
        = readSamples la len from rfl, hpop]
  dsimp only
  unfold chunk_commit_info
  dsimp only
  have hhb : (synchronize (reader_get_sbuf_snapshot la).2 now).1.hb_filters
      = la.hb_filters := syncState_hb la now
  simp only [syncState, lockamp_get_time_step_ns, lockamp_get_decimation,
    lockamp_get_duration_ns]
  rw [hhb, hcap]

/-- `device_read` on a buffer too small for the header: `-EINVAL`, with only
    the snapshot/synchronize mutations applied. -/
theorem device_read_err (la : Lockamp) (now len : Nat)
    (hlen : len < chunkHeaderSize) :
    device_read la now len = (.error (-EINVAL), syncState la now) := by
  simp only [device_read]
  rw [show chunk_get_info (synchronize (reader_get_sbuf_snapshot la).2 now).1 len
        (reader_get_sbuf_snapshot la).1 = .error (-EINVAL) from by
      unfold chunk_get_info
      rw [if_pos (by omega)]]
  rfl

/-- Result projection: bytes returned by a successful read. -/
def readBytes (r : Except Int ReadOk × Lockamp) : Option Nat :=
  match r.1 with
  | .ok ok => some ok.bytes
  | .error _ => none

/-- Result projection: the chunk header returned by a successful read. -/
def readHeader (r : Except Int ReadOk × Lockamp) : Option ChunkHeader :=
  match r.1 with
  | .ok ok => some ok.header
  | .error _ => none

/-! ## Invariant preservation -/

theorem WF_move (la : Lockamp) (hwf : la.WF) (n : Nat) :
    (lockamp_fifo_move_to_sbuf la n).2.WF := by
  rw [move_to_sbuf_eq la hwf n]
  obtain ⟨hc, hh, ht⟩ := hwf
  exact ⟨hc, Nat.mod_lt _ hc, ht⟩

theorem WF_syncState (la : Lockamp) (hwf : la.WF) (now : Nat) :
    (syncState la now).WF := by
  obtain ⟨hc, hh, ht⟩ := hwf
  refine ⟨?_, ?_, ?_⟩
  · rw [syncState_capacity]; exact hc
  · rw [syncState_head, syncState_capacity]; exact hh
  · rw [syncState_tail, syncState_capacity]; exact ht

theorem WF_read (la : Lockamp) (hwf : la.WF) (now len : Nat) :
    (device_read la now len).2.WF := by
  by_cases h16 : chunkHeaderSize ≤ len
  · rw [device_read_eq la hwf now len h16]
    obtain ⟨hc, hh, ht⟩ := hwf
    refine ⟨?_, ?_, ?_⟩
    · show (syncState la now).capacity_n > 0
      rw [syncState_capacity]; exact hc
    · show (syncState la now).head < (syncState la now).capacity_n
      rw [syncState_head, syncState_capacity]; exact hh
    · show (la.tail + readSamples la len) % la.capacity_n
          < (syncState la now).capacity_n
      rw [syncState_capacity]; exact Nat.mod_lt _ hc
  · rw [device_read_err la now len (by omega)]
    exact WF_syncState la hwf now

/-! ## Operation traces

A trace interleaves producer drains (with the hardware-FIFO occupancy seen at
that iteration) and reader calls, respecting the single-producer /
single-consumer discipline: each step acts on the state the previous step
left behind. -/

inductive SbufOp where
  | drain (fifo_size_n : Nat)
  | read (now_ns : Nat) (length : Nat)
  deriving DecidableEq, Repr

def applyOp (la : Lockamp) : SbufOp → Lockamp
  | .drain n => (lockamp_fifo_move_to_sbuf la n).2
  | .read now len => (device_read la now len).2

def applyOps (la : Lockamp) : List SbufOp → Lockamp
  | [] => la
  | op :: ops => applyOps (applyOp la op) ops

theorem WF_applyOp (la : Lockamp) (hwf : la.WF) (op : SbufOp) :
    (applyOp la op).WF := by
  cases op with
  | drain n => exact WF_move la hwf n
  | read now len => exact WF_read la hwf now len

theorem WF_applyOps (ops : List SbufOp) : ∀ (la : Lockamp), la.WF →
    (applyOps la ops).WF := by
  induction ops with
  | nil => intro la hwf; exact hwf
  | cons op ops ih => intro la hwf; exact ih _ (WF_applyOp la hwf op)

theorem applyOp_hb (la : Lockamp) (hwf : la.WF) (op : SbufOp) :
    (applyOp la op).hb_filters = la.hb_filters := by
  cases op with
  | drain n => rfl
  | read now len =>
    show (device_read la now len).2.hb_filters = la.hb_filters
    by_cases h16 : chunkHeaderSize ≤ len
    · rw [device_read_eq la hwf now len h16]
      exact syncState_hb la now
    · rw [device_read_err la now len (by omega)]
      exact syncState_hb la now

theorem applyOp_time_step (la : Lockamp) (hwf : la.WF) (op : SbufOp) :
    lockamp_get_time_step_ns (applyOp la op) = lockamp_get_time_step_ns la := by
  unfold lockamp_get_time_step_ns lockamp_get_decimation
  rw [applyOp_hb la hwf op]

/-! ## Desync-free traces and exact timeline arithmetic -/

/-- No data-loss event fires anywhere along the trace: every drain still has
    free space and no read observes a saturated buffer. -/
def noDesyncTrace (la : Lockamp) : List SbufOp → Prop
  | [] => True
  | .drain n :: ops =>
      availSpace la ≠ 0 ∧ noDesyncTrace (applyOp la (.drain n)) ops
  | .read now len :: ops =>
      occupiedCount la ≠ la.capacity_n - 1
        ∧ noDesyncTrace (applyOp la (.read now len)) ops

/-- Total number of samples returned by the reads of a trace (the `k_i`). -/
def totalReadSamples (la : Lockamp) : List SbufOp → Nat
  | [] => 0
  | .drain n :: ops => totalReadSamples (applyOp la (.drain n)) ops
  | .read now len :: ops =>
      readSamples la len + totalReadSamples (applyOp la (.read now len)) ops

/-- Every read of the trace returns few enough samples that its duration
    `time_step * k` stays below `2 ^ 32`: the 32-bit product in
    `lockamp_get_duration_ns` does not wrap. -/
def boundedReadDurations (la : Lockamp) : List SbufOp → Prop
  | [] => True
  | .drain n :: ops => boundedReadDurations (applyOp la (.drain n)) ops
  | .read now len :: ops =>
      lockamp_get_time_step_ns la * readSamples la len < U32_MOD
        ∧ boundedReadDurations (applyOp la (.read now len)) ops

theorem drain_no_desync_state (la : Lockamp) (hwf : la.WF) (n : Nat)
    (hsp : availSpace la ≠ 0) :
    (applyOp la (.drain n)).desyncs = la.desyncs ∧
    (applyOp la (.drain n)).last_desyncs = la.last_desyncs ∧
    (applyOp la (.drain n)).last_start_time_ns = la.last_start_time_ns := by
  show (lockamp_fifo_move_to_sbuf la n).2.desyncs = la.desyncs ∧
    (lockamp_fifo_move_to_sbuf la n).2.last_desyncs = la.last_desyncs ∧
    (lockamp_fifo_move_to_sbuf la n).2.last_start_time_ns = la.last_start_time_ns
  rw [move_to_sbuf_eq la hwf n]
  refine ⟨?_, rfl, rfl⟩
  show (if availSpace la = 0 then la.desyncs + 1 else la.desyncs) = la.desyncs
  rw [if_neg hsp]

theorem snapshot_desyncs_of_not_full (la : Lockamp)
    (hocc : occupiedCount la ≠ la.capacity_n - 1) :
    (reader_get_sbuf_snapshot la).2.desyncs = la.desyncs := by
  rw [snapshot_snd_desyncs, if_neg (fun h => hocc h.symm)]

theorem syncState_no_desync_last_start (la : Lockamp) (now : Nat)
    (hsync : la.desyncs = la.last_desyncs)
    (hocc : occupiedCount la ≠ la.capacity_n - 1) :
    (syncState la now).last_start_time_ns = la.last_start_time_ns := by
  rw [syncState_last_start, if_neg]
  rw [snapshot_desyncs_of_not_full la hocc]
  omega

theorem readSamples_of_small (la : Lockamp) (len : Nat)
    (hlen : len < chunkHeaderSize) : readSamples la len = 0 := by
  unfold readSamples
  rw [Nat.sub_eq_zero_of_le (by omega), Nat.zero_div]
  exact Nat.zero_min _

theorem read_no_desync_state (la : Lockamp) (hwf : la.WF) (now len : Nat)
    (hsync : la.desyncs = la.last_desyncs)
    (hocc : occupiedCount la ≠ la.capacity_n - 1)
    (hlt : la.last_start_time_ns < U64_MOD) :
    (applyOp la (.read now len)).desyncs = la.desyncs ∧
    (applyOp la (.read now len)).last_desyncs = la.desyncs ∧
    (applyOp la (.read now len)).last_start_time_ns =
      (la.last_start_time_ns
        + lockamp_get_duration_ns la (readSamples la len)) % U64_MOD := by
  show (device_read la now len).2.desyncs = la.desyncs ∧
    (device_read la now len).2.last_desyncs = la.desyncs ∧
    (device_read la now len).2.last_start_time_ns =
      (la.last_start_time_ns
        + lockamp_get_duration_ns la (readSamples la len)) % U64_MOD
  by_cases h16 : chunkHeaderSize ≤ len
  · rw [device_read_eq la hwf now len h16]
    refine ⟨?_, ?_, ?_⟩
    · show (syncState la now).desyncs = la.desyncs
      rw [syncState_desyncs, snapshot_desyncs_of_not_full la hocc]
    · show (syncState la now).last_desyncs = la.desyncs
      rw [syncState_last_desyncs, snapshot_desyncs_of_not_full la hocc]
    · show ((syncState la now).last_start_time_ns
          + lockamp_get_duration_ns la (readSamples la len)) % U64_MOD = _
      rw [syncState_no_desync_last_start la now hsync hocc]
  · rw [device_read_err la now len (by omega)]
    refine ⟨?_, ?_, ?_⟩
    · rw [syncState_desyncs, snapshot_desyncs_of_not_full la hocc]
    · rw [syncState_last_desyncs, snapshot_desyncs_of_not_full la hocc]
    · rw [syncState_no_desync_last_start la now hsync hocc,
          readSamples_of_small la len (by omega)]
      show la.last_start_time_ns
          = (la.last_start_time_ns
              + (lockamp_get_time_step_ns la * 0) % U32_MOD) % U64_MOD
      rw [Nat.mul_zero, Nat.zero_mod, Nat.add_zero, Nat.mod_eq_of_lt hlt]

/-- Exact timeline arithmetic along any desync-free trace whose reads keep
    the 32-bit duration product below `2 ^ 32`: the final
    `last_start_time_ns` is the initial one plus `time_step * Σ k_i`, with no
    drift (provided the u64 accumulator does not wrap either). -/
theorem timeline_trace (ops : List SbufOp) : ∀ (la : Lockamp), la.WF →
    la.desyncs = la.last_desyncs → noDesyncTrace la ops →
    boundedReadDurations la ops →
    la.last_start_time_ns < U64_MOD →
    la.last_start_time_ns
      + lockamp_get_time_step_ns la * totalReadSamples la ops < U64_MOD →
    (applyOps la ops).last_start_time_ns =
      la.last_start_time_ns
        + lockamp_get_time_step_ns la * totalReadSamples la ops := by
  induction ops with
  | nil =>
    intro la _ _ _ _ _ _
    show la.last_start_time_ns = la.last_start_time_ns + _ * totalReadSamples la []
    rw [show totalReadSamples la [] = 0 from rfl, Nat.mul_zero, Nat.add_zero]
  | cons op ops ih =>
    intro la hwf hsync hnd hbd hlt hfit
    cases op with
    | drain n =>
      obtain ⟨hsp, hnd'⟩ := hnd
      have hbd' : boundedReadDurations (applyOp la (.drain n)) ops := hbd
      obtain ⟨hd, hld, hls⟩ := drain_no_desync_state la hwf n hsp
      have hts := applyOp_time_step la hwf (.drain n)
      have htot : totalReadSamples la (.drain n :: ops)
          = totalReadSamples (applyOp la (.drain n)) ops := rfl
      have := ih (applyOp la (.drain n)) (WF_applyOp la hwf _)
        (by rw [hd, hld]; exact hsync) hnd' hbd' (by rw [hls]; exact hlt)
        (by rw [hls, hts, ← htot]; exact hfit)
      calc (applyOps la (.drain n :: ops)).last_start_time_ns
          = (applyOps (applyOp la (.drain n)) ops).last_start_time_ns := rfl
        _ = (applyOp la (.drain n)).last_start_time_ns
              + lockamp_get_time_step_ns (applyOp la (.drain n))
                * totalReadSamples (applyOp la (.drain n)) ops := this
        _ = la.last_start_time_ns
              + lockamp_get_time_step_ns la
                * totalReadSamples la (.drain n :: ops) := by
            rw [hls, hts, htot]
    | read now len =>
      obtain ⟨hocc, hnd'⟩ := hnd
      obtain ⟨hbnd, hbd'⟩ := hbd
      obtain ⟨hd, hld, hls⟩ := read_no_desync_state la hwf now len hsync hocc hlt
      have hdur : lockamp_get_duration_ns la (readSamples la len)
          = lockamp_get_time_step_ns la * readSamples la len := by
        unfold lockamp_get_duration_ns
        exact Nat.mod_eq_of_lt hbnd
      have hts := applyOp_time_step la hwf (.read now len)
      have htot : totalReadSamples la (.read now len :: ops)
          = readSamples la len
            + totalReadSamples (applyOp la (.read now len)) ops := rfl
      have hmul : lockamp_get_time_step_ns la * totalReadSamples la (.read now len :: ops)
          = lockamp_get_time_step_ns la * readSamples la len
            + lockamp_get_time_step_ns la
              * totalReadSamples (applyOp la (.read now len)) ops := by
        rw [htot, Nat.mul_add]
      rw [hmul] at hfit
      have hnow : (applyOp la (.read now len)).last_start_time_ns
          = la.last_start_time_ns
            + lockamp_get_time_step_ns la * readSamples la len := by
        rw [hls, hdur]
        exact Nat.mod_eq_of_lt (by omega)
      have := ih (applyOp la (.read now len)) (WF_applyOp la hwf _)
        (by rw [hd, hld]) hnd' hbd' (by rw [hnow]; omega)
        (by rw [hnow, hts]; omega)
      calc (applyOps la (.read now len :: ops)).last_start_time_ns
          = (applyOps (applyOp la (.read now len)) ops).last_start_time_ns := rfl
        _ = (applyOp la (.read now len)).last_start_time_ns
              + lockamp_get_time_step_ns (applyOp la (.read now len))
                * totalReadSamples (applyOp la (.read now len)) ops := this
        _ = la.last_start_time_ns
              + lockamp_get_time_step_ns la
                * totalReadSamples la (.read now len :: ops) := by
            rw [hnow, hts, hmul]
            omega

/-! ## Concrete states for evaluation -/

/-- A small well-formed running state (capacity 8, occupancy 4, in sync). -/
def exampleLa : Lockamp :=
  { capacity_n := 8, head := 5, tail := 1, desyncs := 3, last_desyncs := 3,
    last_start_time_ns := 1000, hb_filters := 0, fir_cycles := 36 }

/-- A state whose desync counter is ahead of the reader's observed copy. -/
def desyncLa : Lockamp :=
  { capacity_n := 8, head := 3, tail := 1, desyncs := 5, last_desyncs := 4,
    last_start_time_ns := 1000, hb_filters := 0, fir_cycles := 36 }

/-- A saturated state: occupancy equals capacity - 1. -/
def satLa : Lockamp :=
  { capacity_n := 4, head := 3, tail := 0, desyncs := 2, last_desyncs := 2,
    last_start_time_ns := 500, hb_filters := 1, fir_cycles := 78 }

/-! ## The claims -/

/-- C1: a read whose destination buffer holds the 16-byte header plus room
    for `m` samples, taken when the ring-buffer snapshot shows `n` occupied
    samples, succeeds (no blocking, no error) and returns exactly
    `16 + min(m, n) * 32` bytes; in particular with `n = 0` it returns only
    the header. -/
theorem C1_partial_read (la : Lockamp) (hwf : la.WF) (now m : Nat) :
    readBytes (device_read la now (chunkHeaderSize + m * sampleSize))
      = some (chunkHeaderSize + min m (occupiedCount la) * sampleSize) := by
  have hrs : readSamples la (chunkHeaderSize + m * sampleSize)
      = min m (occupiedCount la) := by
    unfold readSamples
    rw [Nat.add_sub_cancel_left,
        Nat.mul_div_cancel _ (by decide : 0 < sampleSize)]
  unfold readBytes
  rw [device_read_eq la hwf now _ (Nat.le_add_right _ _), hrs]

theorem C1_partial_read_witness :
    readBytes (device_read exampleLa 777 (chunkHeaderSize + 5 * sampleSize))
      = some 144 :=
  (C1_partial_read exampleLa (by decide) 777 5).trans (by decide)

/-- C6: a read whose caller-supplied length is smaller than the 16-byte
    chunk-header size fails with `-EINVAL`, while length exactly equal to the
    header size passes the check (the call succeeds, with zero data
    samples). -/
theorem C6_header_length_check (la : Lockamp) (snap : CsbufSnapshot) (len : Nat) :
    (len < chunkHeaderSize → chunk_get_info la len snap = .error (-EINVAL))
    ∧ chunk_get_info la chunkHeaderSize snap
        = .ok { header := { last_start_time_ns := la.last_start_time_ns,
                            time_step_ns := lockamp_get_time_step_ns la },
                data_size_n := 0 } := by
  constructor
  · intro h
    unfold chunk_get_info
    rw [if_pos (by omega)]
  · rw [chunk_get_info_ok la chunkHeaderSize snap le_rfl]
    simp [Nat.sub_self]

theorem C6_header_length_check_witness :
    chunk_get_info exampleLa 8 ⟨4, 5, 1⟩ = .error (-EINVAL)
    ∧ chunk_get_info exampleLa chunkHeaderSize ⟨4, 5, 1⟩
        = .ok { header := { last_start_time_ns := exampleLa.last_start_time_ns,
                            time_step_ns := lockamp_get_time_step_ns exampleLa },
                data_size_n := 0 } :=
  ⟨(C6_header_length_check exampleLa ⟨4, 5, 1⟩ 8).1 (by decide),
   (C6_header_length_check exampleLa ⟨4, 5, 1⟩ 8).2⟩

/-- Projection: the decimation reported after a configuration call. -/
def decimationAfter : Except Int Lockamp → Option Nat
  | .ok la => some (lockamp_get_decimation la)
  | .error _ => none

/-- Projection: the nominal time step after a configuration call. -/
def timeStepAfter : Except Int Lockamp → Option Nat
  | .ok la => some (lockamp_get_time_step_ns la)
  | .error _ => none

/-- C7: `set_decimation(n)` succeeds exactly for `n` in `{1, 2, 4, 8, 16}`
    and fails with `-EINVAL` otherwise; after a successful call the reported
    decimation is `n` and the nominal time step is exactly `n * 2728` ns. -/
theorem C7_set_decimation (la : Lockamp) (n : Nat) :
    ((n = 1 ∨ n = 2 ∨ n = 4 ∨ n = 8 ∨ n = 16) →
      decimationAfter (lockamp_set_decimation la n) = some n
      ∧ timeStepAfter (lockamp_set_decimation la n)
          = some (n * LOCKAMP_BASE_TIME_STEP))
    ∧ (¬(n = 1 ∨ n = 2 ∨ n = 4 ∨ n = 8 ∨ n = 16) →
      lockamp_set_decimation la n = .error (-EINVAL)) := by
  constructor
  · intro h
    unfold lockamp_set_decimation
    rw [if_pos h]
    rcases h with h | h | h | h | h <;> subst h <;> refine ⟨?_, ?_⟩ <;>
      simp [decimationAfter, timeStepAfter, lockamp_get_decimation,
        lockamp_get_time_step_ns, LOCKAMP_BASE_TIME_STEP, Nat.log2]
  · intro h
    unfold lockamp_set_decimation
    rw [if_neg h]

theorem C7_set_decimation_witness :
    (decimationAfter (lockamp_set_decimation exampleLa 8) = some 8
      ∧ timeStepAfter (lockamp_set_decimation exampleLa 8)
          = some (8 * LOCKAMP_BASE_TIME_STEP))
    ∧ lockamp_set_decimation exampleLa 3 = .error (-EINVAL) :=
  ⟨(C7_set_decimation exampleLa 8).1 (by decide),
   (C7_set_decimation exampleLa 3).2 (by decide)⟩

/-- C8: the acquisition thread's sleep range is the stated pure function of
    the hardware-FIFO capacity, the current time step and the last drain
    duration (target = time to fill half the FIFO, upper bound derived by
    subtracting the drain duration), and the clamps always hold: the lower
    bound is at least 2000 us, the upper at least 3000 us, and lower <=
    upper - so the loop never busy-waits. -/
theorem C8_sleep_clamp (la : Lockamp) (fifo_read_duration : Int) :
    sleep_range_us la fifo_read_duration
      = (sleep_lower_us (lockamp_get_read_delay_ns la) fifo_read_duration,
         sleep_upper_us (lockamp_get_read_delay_ns la) fifo_read_duration)
    ∧ lockamp_get_read_delay_ns la
        = lockamp_fifo_capacity_n / 2 * lockamp_get_time_step_ns la
    ∧ 2000 ≤ (sleep_range_us la fifo_read_duration).1
    ∧ 3000 ≤ (sleep_range_us la fifo_read_duration).2
    ∧ (sleep_range_us la fifo_read_duration).1
        ≤ (sleep_range_us la fifo_read_duration).2 := by
  refine ⟨rfl, rfl, ?_, ?_, ?_⟩
  · exact le_max_right _ _
  · exact le_max_right _ _
  · show max (sleep_upper_us _ _ - 10000) 2000 ≤ sleep_upper_us _ _
    have h3 : (3000 : Int) ≤ sleep_upper_us (lockamp_get_read_delay_ns la)
        fifo_read_duration := le_max_right _ _
    exact max_le (by omega) (by omega)

/-- C9: the claim says a failed read-delay computation makes the thread fall
    back to a 250 ms safe sleep.  In the code both `ret` in
    `sleep_until_fifo_half_full` and the global `lockamp_fifo_read_delay` are
    `u64`, so the `< 0` guards compare unsigned values and are always false:
    the fallback branch can never execute, not even when the computation
    returns `-EINVAL`. -/
theorem C9_fallback_never_runs (la : Lockamp) (fifo_size_n : Nat)
    (read_delay_ret : Int) :
    (fifo_to_sbuf_iteration la fifo_size_n read_delay_ret).2 = false := by
  unfold fifo_to_sbuf_iteration fifo_read_delay_is_negative
  simp

/-- C3: on every read, if the live desync counter differs from the reader's
    last-observed copy, the read warns and resets the timeline baseline to the
    current wall-clock time; the last-observed copy is updated to the current
    counter value in either case; and since the check runs before the chunk
    header is built, the header emitted by that same read carries the
    resynchronized baseline. -/
theorem C3_desync_recovery (la : Lockamp) (hwf : la.WF) (now len : Nat)
    (h16 : chunkHeaderSize ≤ len) :
    (device_read la now len).2.last_desyncs
        = (reader_get_sbuf_snapshot la).2.desyncs
    ∧ ((reader_get_sbuf_snapshot la).2.desyncs ≠ la.last_desyncs →
        (synchronize (reader_get_sbuf_snapshot la).2 now).2 = true
        ∧ readHeader (device_read la now len)
            = some { last_start_time_ns := now % U64_MOD,
                     time_step_ns := lockamp_get_time_step_ns la })
    ∧ ((reader_get_sbuf_snapshot la).2.desyncs = la.last_desyncs →
        (synchronize (reader_get_sbuf_snapshot la).2 now).2 = false
        ∧ readHeader (device_read la now len)
            = some { last_start_time_ns := la.last_start_time_ns,
                     time_step_ns := lockamp_get_time_step_ns la }) := by
  refine ⟨?_, fun h => ⟨?_, ?_⟩, fun h => ⟨?_, ?_⟩⟩
  · rw [device_read_eq la hwf now len h16]
    exact syncState_last_desyncs la now
  · unfold synchronize
    rw [if_pos (show (reader_get_sbuf_snapshot la).2.desyncs
        ≠ (reader_get_sbuf_snapshot la).2.last_desyncs from h)]
  · unfold readHeader
    rw [device_read_eq la hwf now len h16]
    dsimp only
    rw [syncState_last_start, if_pos h]
  · unfold synchronize
    rw [if_neg (show ¬(reader_get_sbuf_snapshot la).2.desyncs
        ≠ (reader_get_sbuf_snapshot la).2.last_desyncs from fun hne => hne h)]
  · unfold readHeader
    rw [device_read_eq la hwf now len h16]
    dsimp only
    rw [syncState_last_start, if_neg (fun hne => hne h)]

theorem C3_desync_recovery_witness :
    (device_read desyncLa 4242 16).2.last_desyncs
        = (reader_get_sbuf_snapshot desyncLa).2.desyncs
    ∧ ((reader_get_sbuf_snapshot desyncLa).2.desyncs ≠ desyncLa.last_desyncs →
        (synchronize (reader_get_sbuf_snapshot desyncLa).2 4242).2 = true
        ∧ readHeader (device_read desyncLa 4242 16)
            = some { last_start_time_ns := 4242 % U64_MOD,
                     time_step_ns := lockamp_get_time_step_ns desyncLa })
    ∧ ((reader_get_sbuf_snapshot desyncLa).2.desyncs = desyncLa.last_desyncs →
        (synchronize (reader_get_sbuf_snapshot desyncLa).2 4242).2 = false
        ∧ readHeader (device_read desyncLa 4242 16)
            = some { last_start_time_ns := desyncLa.last_start_time_ns,
                     time_step_ns := lockamp_get_time_step_ns desyncLa }) :=
  C3_desync_recovery desyncLa (by decide) 4242 16 (by decide)

/-- After a producer drain the occupancy grows by exactly the moved count:
    unread data is never overwritten. -/
theorem occupied_after_drain (st : Lockamp) (hwf : st.WF) (n : Nat) :
    occupiedCount (lockamp_fifo_move_to_sbuf st n).2
      = occupiedCount st + (lockamp_fifo_move_to_sbuf st n).1 := by
  obtain ⟨hc, hh, ht⟩ := hwf
  rw [move_to_sbuf_eq st ⟨hc, hh, ht⟩ n]
  exact circCnt_add hh ht (min_le_left _ _)

/-- C4: along any trace of interleaved producer drains and reader pops the
    occupancy never exceeds `capacity - 1`; every producer drain moves exactly
    `min(available_space, fifo occupancy)` samples, and those samples add to
    the occupancy without overwriting unread data. -/
theorem C4_no_overrun (la : Lockamp) (hwf : la.WF) (ops : List SbufOp) (n : Nat) :
    occupiedCount (applyOps la ops) ≤ (applyOps la ops).capacity_n - 1
    ∧ (lockamp_fifo_move_to_sbuf (applyOps la ops) n).1
        = min (availSpace (applyOps la ops)) n
    ∧ occupiedCount (lockamp_fifo_move_to_sbuf (applyOps la ops) n).2
        = occupiedCount (applyOps la ops)
          + (lockamp_fifo_move_to_sbuf (applyOps la ops) n).1 := by
  obtain ⟨hc, hh, ht⟩ := WF_applyOps ops la hwf
  refine ⟨?_, ?_, ?_⟩
  · have : circCnt (applyOps la ops).head (applyOps la ops).tail
        (applyOps la ops).capacity_n < (applyOps la ops).capacity_n :=
      circCnt_lt hc
    unfold occupiedCount
    omega
  · rw [move_to_sbuf_eq _ ⟨hc, hh, ht⟩ n]
  · exact occupied_after_drain _ ⟨hc, hh, ht⟩ n

theorem C4_no_overrun_witness :
    occupiedCount (applyOps exampleLa [.drain 3, .read 9 80])
        ≤ (applyOps exampleLa [.drain 3, .read 9 80]).capacity_n - 1
    ∧ (lockamp_fifo_move_to_sbuf (applyOps exampleLa [.drain 3, .read 9 80]) 100).1
        = min (availSpace (applyOps exampleLa [.drain 3, .read 9 80])) 100
    ∧ occupiedCount
          (lockamp_fifo_move_to_sbuf (applyOps exampleLa [.drain 3, .read 9 80]) 100).2
        = occupiedCount (applyOps exampleLa [.drain 3, .read 9 80])
          + (lockamp_fifo_move_to_sbuf (applyOps exampleLa [.drain 3, .read 9 80]) 100).1 :=
  C4_no_overrun exampleLa (by decide) [.drain 3, .read 9 80] 100

/-- C5: with the ring buffer saturated (`occupancy = capacity - 1`), an
    attempted additional push moves nothing and increments the desync counter
    exactly once, and the next read's chunk header carries the current time
    as its baseline instead of continuing the stale timeline. -/
theorem C5_saturation_desync (la : Lockamp) (hwf : la.WF)
    (hsat : occupiedCount la = la.capacity_n - 1)
    (hsync : la.desyncs = la.last_desyncs)
    (n now len : Nat) (h16 : chunkHeaderSize ≤ len) :
    (lockamp_fifo_move_to_sbuf la n).1 = 0
    ∧ (lockamp_fifo_move_to_sbuf la n).2.desyncs = la.desyncs + 1
    ∧ readHeader (device_read (lockamp_fifo_move_to_sbuf la n).2 now len)
        = some { last_start_time_ns := now % U64_MOD,
                 time_step_ns := lockamp_get_time_step_ns la } := by
  obtain ⟨hc, hh, ht⟩ := hwf
  unfold occupiedCount at hsat
  have hsp : availSpace la = 0 := by
    unfold availSpace
    rw [circSpace_eq_sub hh ht]
    omega
  have hmv : lockamp_fifo_move_to_sbuf la n
      = (0, { la with head := la.head, desyncs := la.desyncs + 1 }) := by
    rw [move_to_sbuf_eq la ⟨hc, hh, ht⟩ n, hsp]
    rw [Nat.zero_min, Nat.add_zero, Nat.mod_eq_of_lt hh, if_pos rfl]
  set la2 := (lockamp_fifo_move_to_sbuf la n).2 with hla2
  have hd2 : la2.desyncs = la.desyncs + 1 := by rw [hla2, hmv]
  have hl2 : la2.last_desyncs = la.last_desyncs := by rw [hla2, hmv]
  have hwf2 : la2.WF := WF_move la ⟨hc, hh, ht⟩ n
  have hts2 : lockamp_get_time_step_ns la2 = lockamp_get_time_step_ns la := by
    unfold lockamp_get_time_step_ns lockamp_get_decimation
    rw [hla2, hmv]
  have hcond : (reader_get_sbuf_snapshot la2).2.desyncs ≠ la2.last_desyncs := by
    rw [snapshot_snd_desyncs, hl2]
    by_cases hful : la2.capacity_n - 1 = occupiedCount la2
    · rw [if_pos hful, hd2]
      omega
    · rw [if_neg hful, hd2]
      omega
  refine ⟨by rw [hmv], by rw [hd2], ?_⟩
  unfold readHeader
  rw [device_read_eq la2 hwf2 now len h16]
  dsimp only
  rw [syncState_last_start, if_pos hcond, hts2]

theorem C5_saturation_desync_witness :
    (lockamp_fifo_move_to_sbuf satLa 1).1 = 0
    ∧ (lockamp_fifo_move_to_sbuf satLa 1).2.desyncs = satLa.desyncs + 1
    ∧ readHeader (device_read (lockamp_fifo_move_to_sbuf satLa 1).2 999 16)
        = some { last_start_time_ns := 999 % U64_MOD,
                 time_step_ns := lockamp_get_time_step_ns satLa } :=
  C5_saturation_desync satLa (by decide) (by decide) (by decide) 1 999 16
    (by decide)

/-- C10: taking the reader's snapshot itself increments the desync counter
    whenever the observed occupancy equals `capacity - 1`, so a read that
    merely observes a saturated buffer resets the timeline within that same
    read, even without a producer push; consecutive snapshots of a saturated
    buffer increment the counter once each. -/
theorem C10_snapshot_increments (la : Lockamp) (hwf : la.WF) (now len : Nat)
    (hsat : occupiedCount la = la.capacity_n - 1)
    (hsync : la.desyncs = la.last_desyncs) (h16 : chunkHeaderSize ≤ len) :
    (reader_get_sbuf_snapshot la).2.desyncs = la.desyncs + 1
    ∧ readHeader (device_read la now len)
        = some { last_start_time_ns := now % U64_MOD,
                 time_step_ns := lockamp_get_time_step_ns la }
    ∧ (reader_get_sbuf_snapshot (reader_get_sbuf_snapshot la).2).2.desyncs
        = la.desyncs + 2 := by
  have h1 : (reader_get_sbuf_snapshot la).2.desyncs = la.desyncs + 1 := by
    rw [snapshot_snd_desyncs, if_pos hsat.symm]
  refine ⟨h1, ?_, ?_⟩
  · unfold readHeader
    rw [device_read_eq la hwf now len h16]
    dsimp only
    rw [syncState_last_start, if_pos (by rw [h1]; omega)]
  · rw [snapshot_snd_desyncs]
    have hocc : occupiedCount (reader_get_sbuf_snapshot la).2
        = occupiedCount la := rfl
    have hcap : (reader_get_sbuf_snapshot la).2.capacity_n = la.capacity_n := rfl
    rw [hocc, hcap, if_pos hsat.symm, h1]

theorem C10_snapshot_increments_witness :
    (reader_get_sbuf_snapshot satLa).2.desyncs = satLa.desyncs + 1
    ∧ readHeader (device_read satLa 321 16)
        = some { last_start_time_ns := 321 % U64_MOD,
                 time_step_ns := lockamp_get_time_step_ns satLa }
    ∧ (reader_get_sbuf_snapshot (reader_get_sbuf_snapshot satLa).2).2.desyncs
        = satLa.desyncs + 2 :=
  C10_snapshot_increments satLa (by decide) 321 16 (by decide) (by decide)
    (by decide)

/-- Decision procedure for `noDesyncTrace`, used to evaluate it on concrete
    traces. -/
def noDesyncTraceDecidable :
    (ops : List SbufOp) → (la : Lockamp) → Decidable (noDesyncTrace la ops)
  | [], _ => isTrue trivial
  | .drain n :: ops, la =>
      have _h2 : Decidable (noDesyncTrace (applyOp la (.drain n)) ops) :=
        noDesyncTraceDecidable ops _
      inferInstanceAs (Decidable (_ ∧ _))
  | .read now len :: ops, la =>
      have _h2 : Decidable (noDesyncTrace (applyOp la (.read now len)) ops) :=
        noDesyncTraceDecidable ops _
      inferInstanceAs (Decidable (_ ∧ _))

instance (la : Lockamp) (ops : List SbufOp) : Decidable (noDesyncTrace la ops) :=
  noDesyncTraceDecidable ops la

/-- Decision procedure for `boundedReadDurations`, used to evaluate it on
    concrete traces. -/
def boundedReadDurationsDecidable :
    (ops : List SbufOp) → (la : Lockamp) → Decidable (boundedReadDurations la ops)
  | [], _ => isTrue trivial
  | .drain n :: ops, la =>
      have _h2 : Decidable (boundedReadDurations (applyOp la (.drain n)) ops) :=
        boundedReadDurationsDecidable ops _
      inferInstanceAs (Decidable (boundedReadDurations (applyOp la (.drain n)) ops))
  | .read now len :: ops, la =>
      have _h2 : Decidable (boundedReadDurations (applyOp la (.read now len)) ops) :=
        boundedReadDurationsDecidable ops _
      inferInstanceAs (Decidable (_ ∧ _))

instance (la : Lockamp) (ops : List SbufOp) :
    Decidable (boundedReadDurations la ops) :=
  boundedReadDurationsDecidable ops la

/-- Decimation 16 (time step 43648 ns) with the production-size signal buffer
    (131072 samples) holding 98418 unread samples. -/
def bigLa : Lockamp :=
  { capacity_n := 131072, head := 98418, tail := 0, desyncs := 0,
    last_desyncs := 0, last_start_time_ns := 0, hb_filters := 4,
    fir_cycles := 511 }

/-- C2, counterexample to the claim as stated: a single desync-free read at
    decimation 16 returning 98418 samples should advance the timeline by
    `43648 * 98418 = 4295748864` ns, but `lockamp_get_duration_ns` computes
    the product in 32-bit arithmetic, so the timeline advances by its value
    modulo `2 ^ 32`, namely 781568 ns - a drift of about 4.29 s on one read,
    even though the u64 accumulator itself is nowhere near wrapping. -/
theorem C2_counterexample :
    bigLa.WF
    ∧ bigLa.desyncs = bigLa.last_desyncs
    ∧ noDesyncTrace bigLa [.read 0 (chunkHeaderSize + 98418 * sampleSize)]
    ∧ bigLa.last_start_time_ns
        + lockamp_get_time_step_ns bigLa
          * totalReadSamples bigLa [.read 0 (chunkHeaderSize + 98418 * sampleSize)]
        = 4295748864
    ∧ (applyOps bigLa
          [.read 0 (chunkHeaderSize + 98418 * sampleSize)]).last_start_time_ns
        = 781568 := by
  refine ⟨by decide, rfl, by decide, by decide, by decide⟩

/-- C2, amended: over any desync-free run with the nominal time step fixed
    at `T`, reads returning `k_1, ..., k_n` samples leave
    `last_start_time_ns` equal to its initial value plus
    `T * (k_1 + ... + k_n)` - exact integer arithmetic, zero drift -
    provided each read's duration `T * k_i` stays below `2 ^ 32` (the
    product is computed in 32-bit arithmetic before reaching the u64
    accumulator) and the u64 accumulator itself does not wrap.  A read whose
    `T * k_i` reaches `2 ^ 32` instead advances the timeline by
    `(T * k_i) mod 2 ^ 32`. -/
theorem C2_exact_timeline (la : Lockamp) (ops : List SbufOp) (hwf : la.WF)
    (hsync : la.desyncs = la.last_desyncs) (hnd : noDesyncTrace la ops)
    (hbd : boundedReadDurations la ops)
    (hlt : la.last_start_time_ns < U64_MOD)
    (hfit : la.last_start_time_ns
      + lockamp_get_time_step_ns la * totalReadSamples la ops < U64_MOD) :
    (applyOps la ops).last_start_time_ns =
      la.last_start_time_ns
        + lockamp_get_time_step_ns la * totalReadSamples la ops :=
  timeline_trace ops la hwf hsync hnd hbd hlt hfit

theorem C2_exact_timeline_witness :
    (applyOps exampleLa [.read 0 (chunkHeaderSize + 2 * sampleSize), .drain 2,
        .read 0 (chunkHeaderSize + 10 * sampleSize)]).last_start_time_ns =
      exampleLa.last_start_time_ns
        + lockamp_get_time_step_ns exampleLa
          * totalReadSamples exampleLa [.read 0 (chunkHeaderSize + 2 * sampleSize),
              .drain 2, .read 0 (chunkHeaderSize + 10 * sampleSize)] :=
  C2_exact_timeline exampleLa
    [.read 0 (chunkHeaderSize + 2 * sampleSize), .drain 2,
     .read 0 (chunkHeaderSize + 10 * sampleSize)]
    (by decide) (by decide) (by decide) (by decide) (by decide) (by decide)

end SbtLockamp
